import Mathlib

/-!
Shallow embedding of the amazon-bedrock-audio-summarizer pipeline.

Source files embedded:
* `lambda/eventbridge-bedrock-inference/lambda_function.py`
  (`convert_to_txt_file`, `lambda_handler`)
* `lambda/s3-trigger-transcribe/lambda_function.py` (`lambda_handler`)
* `summarizer/summarizer_stack.py` (the EventBridge rule's job-name pattern)

Conventions: Python `None`-able strings become `Option String`; a Python
function that can raise an exception which no caller catches is modelled
with an explicit error constructor.  Machine randomness (`random.choices`)
and fresh temp-file names (`tempfile.NamedTemporaryFile`) are passed in as
parameters, so every definition is a pure, executable Lean function.
-/

namespace AudioSummarizer

/-- One item of the Transcribe `results.items[]` array: a `pronunciation`
item carries a `speaker_label` and its word, a `punctuation` item carries
only its text (`alternatives[0].content` in both cases). -/
inductive TranscriptItem where
  | pronunciation (speaker_label : String) (content : String)
  | punctuation (content : String)
deriving DecidableEq, Repr

/-- The `alternatives[0].content` field of an item. -/
def TranscriptItem.content : TranscriptItem → String
  | .pronunciation _ c => c
  | .punctuation c => c

/-- Whether an item is a `pronunciation` item. -/
def TranscriptItem.isPronunciation : TranscriptItem → Bool
  | .pronunciation _ _ => true
  | .punctuation _ => false

/-- Loop state of `convert_to_txt_file`: the two accumulator variables,
the `output` list of emitted lines, and the function-scoped binding of the
loop-local variable `speaker_label` (`none` while it has never been
assigned, in which case reading it raises `UnboundLocalError`). -/
structure ConvState where
  current_speaker : Option String
  current_text : String
  output : List String
  speaker_label : Option String
deriving DecidableEq, Repr

/-- Python `str(x)` for `x : Option String`: `None` prints as `"None"`,
which is what the f-string in the source interpolates when
`current_speaker` is still `None`. -/
def pyStr : Option String → String
  | none => "None"
  | some s => s

/-- Python `str.strip()` with no argument: drop leading and trailing
whitespace (modelled on the ASCII whitespace characters that occur in
transcript text). -/
def pyStrip (s : String) : String :=
  String.mk (((s.data.dropWhile Char.isWhitespace).reverse.dropWhile
    Char.isWhitespace).reverse)

/-- The f-string `"{current_speaker}: {current_text.strip()}\n"` used for
every line emitted inside the loop. -/
def formatLine (speaker : Option String) (text : String) : String :=
  pyStr speaker ++ ": " ++ pyStrip text ++ "\n"

/-- Initial loop state: `current_speaker = None`, `current_text = ""`,
empty `output`, `speaker_label` not yet bound. -/
def initState : ConvState :=
  { current_speaker := none, current_text := "", output := [], speaker_label := none }

/-- One iteration of the loop body of `convert_to_txt_file`.  For a
`pronunciation` item the variable `speaker_label` is (re)bound, and on a
speaker change the pending text (if non-empty, Python truthiness) is
emitted under the *previous* `current_speaker`; for a `punctuation` item
the text is appended with no separating space. -/
def convStep (st : ConvState) (item : TranscriptItem) : ConvState :=
  match item with
  | .pronunciation lbl content =>
    if some lbl ≠ st.current_speaker then
      { st with
        output :=
          if st.current_text ≠ "" then
            st.output ++ [formatLine st.current_speaker st.current_text]
          else st.output,
        current_speaker := some lbl,
        current_text := content,
        speaker_label := some lbl }
    else
      { st with
        current_text := st.current_text ++ " " ++ content,
        speaker_label := some lbl }
  | .punctuation content =>
    { st with current_text := st.current_text ++ content }

/-- The whole `for item in data["results"].get("items", [])` loop. -/
def convLoop (items : List TranscriptItem) : ConvState :=
  items.foldl convStep initState

/-- The post-loop final emission of `convert_to_txt_file`: if
`current_text` is non-empty, one more line is written using the variable
`speaker_label`; reading it unbound raises `UnboundLocalError`, modelled
as `none`. -/
def convFinishLines (st : ConvState) : Option (List String) :=
  if st.current_text ≠ "" then
    match st.speaker_label with
    | none => none
    | some sp => some (st.output ++ [sp ++ ": " ++ pyStrip st.current_text ++ "\n"])
  else
    some st.output

/-- The list of lines `convert_to_txt_file` appends to `output` (equally,
writes to the temp file), given the parsed `items`; `none` models the
uncaught `UnboundLocalError` of the final emission. -/
def convertLines (items : List TranscriptItem) : Option (List String) :=
  convFinishLines (convLoop items)

/-- The transcript string `"".join(output)` returned by
`convert_to_txt_file` on parsed `items`; `none` models the uncaught
`UnboundLocalError` of the final emission. -/
def convert_to_txt_file (items : List TranscriptItem) : Option String :=
  (convertLines items).map String.join

/-- Speaker labels of the pronunciation items, in order (punctuation items
contribute nothing). -/
def pronLabels (items : List TranscriptItem) : List String :=
  items.filterMap fun i =>
    match i with
    | .pronunciation l _ => some l
    | .punctuation _ => none

/-- Number of positions at which the label differs from its predecessor
(the predecessor of the head being `cur`). -/
def labelChanges (cur : String) : List String → Nat
  | [] => 0
  | l :: ls => (if l = cur then 0 else 1) + labelChanges l ls

/-- Modelled from the spec's words (claim C1): the number of maximal runs
of consecutive pronunciation items sharing the same speaker label, where
runs are separated only by speaker changes and a punctuation item never
starts a new run. -/
def specRunCount (items : List TranscriptItem) : Nat :=
  match pronLabels items with
  | [] => 0
  | l :: ls => 1 + labelChanges l ls

/-- The speaker label of the last pronunciation item of the sequence, if
any ("the last seen speaker label"). -/
def lastLabel : List TranscriptItem → Option String
  | [] => none
  | item :: rest =>
    match lastLabel rest with
    | some l => some l
    | none =>
      match item with
      | .pronunciation l _ => some l
      | .punctuation _ => none

/-- Concatenation of the contents of a list of items (used for
punctuation-only sequences, where the loop only ever appends contents to
`current_text`). -/
def contentConcat (items : List TranscriptItem) : String :=
  items.foldr (fun i acc => i.content ++ acc) ""

/-- Python result of a call: either a returned value, or an exception (by
exception-class name) that the function lets escape. -/
inductive PyResult (α : Type) where
  | ok (val : α)
  | exn (exnName : String)
deriving DecidableEq, Repr

/-- The whole `convert_to_txt_file(json_file)` call: `parsed` is the
outcome of `json.load` on the file (`none` when the contents are not
valid JSON, in which case the `JSONDecodeError` is caught and the Python
function returns the single value `None`); `tmpPath` is the fresh
`NamedTemporaryFile` name chosen by the runtime for this run.  The
`UnboundLocalError` of the final emission escapes the function. -/
def convert_to_txt_file_py (tmpPath : String) (parsed : Option (List TranscriptItem)) :
    PyResult (Option (String × String)) :=
  match parsed with
  | none => .ok none
  | some items =>
    match convertLines items with
    | none => .exn "UnboundLocalError"
    | some lines => .ok (some (String.join lines, tmpPath))

/-- The transcript content string of one run of `convert_to_txt_file`,
when the run returns a transcript at all. -/
def transcriptContent : PyResult (Option (String × String)) → Option String
  | .ok (some (c, _)) => some c
  | .ok none => none
  | .exn _ => none

/-- The dict `{"statusCode": ..., "body": ...}` both handlers return. -/
structure LambdaResponse where
  statusCode : Nat
  body : String
deriving DecidableEq, Repr

/-- The `detail` payload of a Transcribe job-state-change event. -/
structure JobDetail where
  jobName : String
  status : String
deriving DecidableEq, Repr

/-- External calls issued by the summarizer handler, in program order. -/
inductive BedrockEffect where
  | getTranscriptionJob (jobName : String)
  | s3DownloadFile (bucket key dest : String)
  | s3UploadFile (src bucket key : String)
  | invokeModel (modelId : String) (promptTranscript : String)
  | s3PutObject (bucket key bodyText : String)
deriving DecidableEq, Repr

/-- Responses of the external services during one summarizer invocation:
whether the transcript download and upload succeed, the parse outcome of
the downloaded file, the temp-file name the runtime picks, and the
Bedrock / S3 response data.  The `...Msg` fields are the `str(e)` texts
of the respective exceptions. -/
structure BedrockEnv where
  downloadOk : Bool
  downloadErrMsg : String
  parsedItems : Option (List TranscriptItem)
  tmpName : String
  uploadOk : Bool
  uploadErrMsg : String
  invokeRaises : Bool
  invokeErrMsg : String
  invokeStatus : Nat
  invokeHasBody : Bool
  invokeBodyStr : String
  invokeText : String
  putStatus : Nat
  putRespStr : String
deriving DecidableEq, Repr

/-- The `lambda_handler` of `eventbridge-bedrock-inference`: dispatch on
the job status, and on `COMPLETED` download the raw transcript, convert
it (the conversion returning Python `None` on invalid JSON is then
unpacked into two variables, raising an uncaught `TypeError`), upload the
text file, invoke the model with the fixed model id and the prompt built
around the transcript, and store the summary.  The fixed English prompt
template around the interpolated transcript is elided from the
`invokeModel` effect; no claim concerns its wording.  Returns the
response (or escaped exception) together with the list of external calls
made. -/
def bedrock_lambda_handler (bucket : String) (env : BedrockEnv)
    (event : Option JobDetail) : PyResult LambdaResponse × List BedrockEffect :=
  match event with
  | none => (.ok ⟨500, "Invalid event received."⟩, [])
  | some d =>
    let name := d.jobName
    let e0 := [BedrockEffect.getTranscriptionJob name]
    if d.status = "COMPLETED" then
      let e1 := e0 ++ [BedrockEffect.getTranscriptionJob name]
      let e2 := e1 ++ [BedrockEffect.s3DownloadFile bucket
        ("transcription/" ++ name ++ ".json") ("/tmp/" ++ name ++ ".json")]
      if ¬ env.downloadOk then
        (.ok ⟨400, "Error downloading s3://" ++ bucket ++ "/transcription/" ++ name
          ++ ".json: " ++ env.downloadErrMsg⟩, e2)
      else
        match convert_to_txt_file_py env.tmpName env.parsedItems with
        | .exn ex => (.exn ex, e2)
        | .ok none => (.exn "TypeError", e2)
        | .ok (some (transcript_content, transcript_output_file)) =>
          let e3 := e2 ++ [BedrockEffect.s3UploadFile transcript_output_file bucket
            ("transcription/" ++ name ++ ".txt")]
          if ¬ env.uploadOk then
            (.ok ⟨400, "Error uploading converted file to s3://" ++ bucket
              ++ "/transcription/" ++ name ++ ".txt: " ++ env.uploadErrMsg⟩, e3)
          else
            let e4 := e3 ++ [BedrockEffect.invokeModel
              "anthropic.claude-3-sonnet-20240229-v1:0" transcript_content]
            if env.invokeRaises then
              (.ok ⟨400, env.invokeErrMsg⟩, e4)
            else if env.invokeStatus ≠ 200 then
              if env.invokeHasBody then
                (.ok ⟨env.invokeStatus, env.invokeBodyStr⟩, e4)
              else
                (.ok ⟨env.invokeStatus, "An unknown error occured."⟩, e4)
            else
              let summary := env.invokeText
              let e5 := e4 ++ [BedrockEffect.s3PutObject bucket
                ("processed/" ++ name ++ ".txt") summary]
              if env.putStatus ≠ 200 then
                (.ok ⟨env.putStatus, env.putRespStr⟩, e5)
              else
                (.ok ⟨200, "processed/" ++ name ++ ".txt"⟩, e5)
    else if d.status = "FAILED" then
      (.ok ⟨400, "Unable to process, job " ++ name ++ " failed."⟩, e0)
    else
      (.ok ⟨500, "Transcription job " ++ name ++ " is not completed or failed."⟩, e0)

/-- Index of the last occurrence of `c` in the character list, if any. -/
def lastIndexOfAux (c : Char) : List Char → Nat → Option Nat
  | [], _ => none
  | x :: xs, i =>
    match lastIndexOfAux c xs (i + 1) with
    | some j => some j
    | none => if x = c then some i else none

/-- Index of the last occurrence of `c` in the character list, if any. -/
def lastIndexOf (c : Char) (l : List Char) : Option Nat :=
  lastIndexOfAux c l 0

/-- `os.path.splitext` for POSIX paths: split at the last dot of the
basename, unless every character of the basename before that dot is
itself a dot (a leading-dots file such as `.bashrc` has no extension). -/
def splitext (p : String) : String × String :=
  let cs := p.toList
  let sep := lastIndexOf '/' cs
  let dot := lastIndexOf '.' cs
  match dot with
  | none => (p, "")
  | some d =>
    let start := match sep with | none => 0 | some i => i + 1
    let gtSep := match sep with | none => true | some i => decide (i < d)
    if gtSep then
      if ((cs.drop start).take (d - start)).any (fun ch => ch ≠ '.') then
        (String.mk (cs.take d), String.mk (cs.drop d))
      else (p, "")
    else (p, "")

/-- `string.ascii_lowercase`. -/
def ascii_lowercase : String := "abcdefghijklmnopqrstuvwxyz"

/-- `string.digits`. -/
def string_digits : String := "0123456789"

/-- `random.choices(string.ascii_lowercase + string.digits, k=12)`,
with the random source modelled as an arbitrary index picker `r`. -/
def job_id_suffix_of (r : Nat → Nat) : List Char :=
  (List.range 12).map fun i =>
    ((ascii_lowercase ++ string_digits).toList).getD
      (r i % (ascii_lowercase ++ string_digits).toList.length) 'a'

/-- The generated job name `"summarizer-" + job_id_suffix`. -/
def job_name_of (r : Nat → Nat) : String :=
  "summarizer-" ++ String.mk (job_id_suffix_of r)

/-- The job-name pattern of the EventBridge rule in
`summarizer_stack.py`: `TranscriptionJobName` must start with this string
for the rule to invoke the summarizer. -/
def transcribe_rule_job_name_pat : String := "summarizer-"

/-- External call issued by the S3-trigger handler. -/
inductive S3TriggerEffect where
  | startTranscriptionJob (jobName mediaUri mediaFormat outputKey : String)
deriving DecidableEq, Repr

/-- Response of the Transcribe service to `start_transcription_job`
during one ingest invocation (`startRaises` models any exception from the
call, `exnMsg` its `str(e)` text). -/
structure TranscribeEnv where
  startRaises : Bool
  exnMsg : String
  startStatus : Nat
deriving DecidableEq, Repr

/-- The `lambda_handler` of `s3-trigger-transcribe`: skip the watched
folder itself, generate the job name, reject keys without an extension,
then submit exactly one transcription job for the object and report the
upstream status.  Returns the response together with the list of job
submissions attempted. -/
def s3_lambda_handler (env : TranscribeEnv) (r : Nat → Nat)
    (bucket key : String) : LambdaResponse × List S3TriggerEffect :=
  if key = "source/" then
    (⟨200, "Source folder, skipping"⟩, [])
  else
    let job_name := job_name_of r
    let extension := (splitext key).2
    if extension = "" then
      (⟨400, "invalid file name " ++ key⟩, [])
    else
      let media_format := extension.drop 1
      let job_uri := "s3://" ++ bucket ++ "/" ++ key
      let eff := S3TriggerEffect.startTranscriptionJob job_name job_uri media_format
        ("transcription/" ++ job_name ++ ".json")
      if env.startRaises then
        (⟨500, env.exnMsg⟩, [eff])
      else if env.startStatus ≠ 200 then
        (⟨env.startStatus, job_name⟩, [eff])
      else
        (⟨200, job_name⟩, [eff])

theorem String.append_ne_empty_left {s : String} (t : String) (h : s ≠ "") :
    s ++ t ≠ "" := by
  intro h2
  apply h
  cases s with
  | mk ds =>
    cases t with
    | mk dt =>
      have h3 : ds ++ dt = [] := congrArg String.data h2
      rcases List.append_eq_nil.mp h3 with ⟨h4, _⟩
      exact congrArg String.mk h4

theorem String.append_ne_empty_right (s : String) {t : String} (h : t ≠ "") :
    s ++ t ≠ "" := by
  intro h2
  apply h
  cases s with
  | mk ds =>
    cases t with
    | mk dt =>
      have h3 : ds ++ dt = [] := congrArg String.data h2
      rcases List.append_eq_nil.mp h3 with ⟨_, h4⟩
      exact congrArg String.mk h4

/-- Main loop invariant: starting from a state whose `current_speaker` and
`speaker_label` both hold the same label `s` and whose pending text is
non-empty, and provided every pronunciation item of the remaining input
has non-empty content, the loop keeps the pending text non-empty, keeps
`speaker_label` aligned with `current_speaker`, and grows `output` by
exactly the number of speaker changes among the remaining pronunciation
items. -/
theorem convStep_foldl_invariant (rest : List TranscriptItem) :
    ∀ (st : ConvState) (s : String),
      st.current_speaker = some s →
      st.speaker_label = some s →
      st.current_text ≠ "" →
      (∀ l c, TranscriptItem.pronunciation l c ∈ rest → c ≠ "") →
      (rest.foldl convStep st).current_text ≠ "" ∧
      (rest.foldl convStep st).output.length
        = st.output.length + labelChanges s (pronLabels rest) ∧
      ∃ s2, (rest.foldl convStep st).current_speaker = some s2 ∧
        (rest.foldl convStep st).speaker_label = some s2 := by
  induction rest with
  | nil =>
    intro st s h1 h2 h3 _
    exact ⟨h3, by simp [pronLabels, labelChanges], s, h1, h2⟩
  | cons item rest ih =>
    intro st s h1 h2 h3 h4
    cases item with
    | pronunciation lbl c =>
      have hc : c ≠ "" := h4 lbl c (List.mem_cons_self _ _)
      by_cases hlbl : lbl = s
      · subst hlbl
        have hstep : convStep st (.pronunciation lbl c)
            = { st with current_text := st.current_text ++ " " ++ c,
                        speaker_label := some lbl } := by
          simp [convStep, h1]
        have hrec := ih { st with current_text := st.current_text ++ " " ++ c,
                                  speaker_label := some lbl } lbl h1 rfl
          (String.append_ne_empty_left c (String.append_ne_empty_left " " h3))
          (fun l2 c2 hm => h4 l2 c2 (List.mem_cons_of_mem _ hm))
        rw [List.foldl_cons, hstep]
        refine ⟨hrec.1, ?_, hrec.2.2⟩
        rw [hrec.2.1]
        simp [pronLabels, labelChanges]
      · have hcond : some lbl ≠ st.current_speaker := by
          rw [h1]; simp [hlbl]
        have hstep : convStep st (.pronunciation lbl c)
            = { st with
                output := st.output ++ [formatLine st.current_speaker st.current_text],
                current_speaker := some lbl,
                current_text := c,
                speaker_label := some lbl } := by
          simp [convStep, hcond, h3]
        have hrec := ih { st with
            output := st.output ++ [formatLine st.current_speaker st.current_text],
            current_speaker := some lbl,
            current_text := c,
            speaker_label := some lbl } lbl rfl rfl hc
          (fun l2 c2 hm => h4 l2 c2 (List.mem_cons_of_mem _ hm))
        rw [List.foldl_cons, hstep]
        refine ⟨hrec.1, ?_, hrec.2.2⟩
        rw [hrec.2.1]
        simp [pronLabels, labelChanges, hlbl]
        omega
    | punctuation p =>
      have hstep : convStep st (.punctuation p)
          = { st with current_text := st.current_text ++ p } := by
        simp [convStep]
      have hrec := ih { st with current_text := st.current_text ++ p } s h1 h2
        (String.append_ne_empty_left p h3)
        (fun l2 c2 hm => h4 l2 c2 (List.mem_cons_of_mem _ hm))
      rw [List.foldl_cons, hstep]
      refine ⟨hrec.1, ?_, hrec.2.2⟩
      rw [hrec.2.1]
      simp [pronLabels]

/-- After the loop, `speaker_label` holds the label of the last
pronunciation item processed, or keeps its starting value if none was. -/
theorem foldl_speaker_label (items : List TranscriptItem) :
    ∀ st : ConvState,
      (items.foldl convStep st).speaker_label
        = match lastLabel items with
          | some l => some l
          | none => st.speaker_label := by
  induction items with
  | nil => intro st; simp [lastLabel]
  | cons item rest ih =>
    intro st
    rw [List.foldl_cons, ih]
    cases item with
    | pronunciation l c =>
      have hsl : (convStep st (.pronunciation l c)).speaker_label = some l := by
        by_cases h : some l ≠ st.current_speaker <;> simp [convStep, h]
      cases h : lastLabel rest <;> simp [lastLabel, h, hsl]
    | punctuation p =>
      cases h : lastLabel rest <;> simp [convStep, lastLabel, h]

/-- On a sequence with no pronunciation item, the loop only appends the
items' contents to `current_text` and never binds `speaker_label`. -/
theorem foldl_all_punctuation (items : List TranscriptItem) :
    ∀ st : ConvState,
      (∀ i ∈ items, i.isPronunciation = false) →
      (items.foldl convStep st).current_text = st.current_text ++ contentConcat items ∧
      (items.foldl convStep st).speaker_label = st.speaker_label := by
  induction items with
  | nil =>
    intro st _
    exact ⟨by simp [contentConcat, String.append_empty], rfl⟩
  | cons item rest ih =>
    intro st hall
    cases item with
    | pronunciation l c =>
      exact absurd (hall _ (List.mem_cons_self _ _)) (by simp [TranscriptItem.isPronunciation])
    | punctuation p =>
      have hrec := ih { st with current_text := st.current_text ++ p }
        (fun i hi => hall i (List.mem_cons_of_mem _ hi))
      rw [List.foldl_cons]
      have hstep : convStep st (.punctuation p)
          = { st with current_text := st.current_text ++ p } := by
        simp [convStep]
      rw [hstep]
      refine ⟨?_, hrec.2⟩
      rw [hrec.1]
      simp [contentConcat, TranscriptItem.content, String.append_assoc]

/-- If some item of the list has non-empty content, so does the
concatenation of all contents. -/
theorem contentConcat_ne_empty (items : List TranscriptItem)
    (h : ∃ i ∈ items, i.content ≠ "") : contentConcat items ≠ "" := by
  induction items with
  | nil => obtain ⟨i, hi, _⟩ := h; exact absurd hi (List.not_mem_nil i)
  | cons item rest ih =>
    obtain ⟨i, hi, hc⟩ := h
    rcases List.mem_cons.mp hi with h1 | h1
    · subst h1
      exact String.append_ne_empty_left _ hc
    · exact String.append_ne_empty_right _ (ih ⟨i, h1, hc⟩)

/-- The run count of a sequence headed by a pronunciation item. -/
theorem specRunCount_cons_pron (l c : String) (rest : List TranscriptItem) :
    specRunCount (TranscriptItem.pronunciation l c :: rest)
      = 1 + labelChanges l (pronLabels rest) := by
  simp [specRunCount, pronLabels, List.filterMap_cons]

/-- Claim C1, counterexample: on the non-empty input
`[punctuation "."; pronunciation "spk_0" "Hello"]` the normalizer emits
two lines — a spurious `"None: ."` line for the punctuation preceding the
first pronunciation, then the speaker line — while there is exactly one
maximal run of same-speaker pronunciation items, so the emitted line
count differs from the run count. -/
theorem C1_counterexample :
    (convertLines [TranscriptItem.punctuation ".",
        TranscriptItem.pronunciation "spk_0" "Hello"]).map List.length
      ≠ some (specRunCount [TranscriptItem.punctuation ".",
        TranscriptItem.pronunciation "spk_0" "Hello"]) := by
  decide

/-- Claim C1, amended: for every item sequence whose first item is a
pronunciation item and whose pronunciation items all have non-empty
content, the normalizer returns, and the number of emitted lines equals
the number of maximal runs of consecutive pronunciation items sharing the
same speaker label (runs separated only by speaker changes; a punctuation
item never starts a new run). -/
theorem C1_line_count_eq_run_count (l c : String) (rest : List TranscriptItem)
    (hc : c ≠ "")
    (hr : ∀ i ∈ rest, i.isPronunciation = true → i.content ≠ "") :
    (convertLines (TranscriptItem.pronunciation l c :: rest)).map List.length
      = some (specRunCount (TranscriptItem.pronunciation l c :: rest)) := by
  have hst1 : convStep initState (.pronunciation l c)
      = { current_speaker := some l, current_text := c, output := [],
          speaker_label := some l } := by
    simp [convStep, initState]
  have hinv := convStep_foldl_invariant rest
    { current_speaker := some l, current_text := c, output := [], speaker_label := some l }
    l rfl rfl hc (fun l2 c2 hm => hr _ hm rfl)
  obtain ⟨hct, hlen, s2, hcs, hsl⟩ := hinv
  rw [convertLines, convLoop, List.foldl_cons, hst1, convFinishLines, if_pos hct, hsl,
    specRunCount_cons_pron]
  simp only [Option.map_some', Option.some.injEq, List.length_append, hlen,
    List.length_singleton]
  show 0 + labelChanges l (pronLabels rest) + 1 = 1 + labelChanges l (pronLabels rest)
  omega

/-- Witness for `C1_line_count_eq_run_count` at the three-item example
input of the spec. -/
theorem C1_witness :
    (convertLines [TranscriptItem.pronunciation "spk_0" "Hello",
        TranscriptItem.punctuation ".",
        TranscriptItem.pronunciation "spk_1" "world"]).map List.length
      = some (specRunCount [TranscriptItem.pronunciation "spk_0" "Hello",
        TranscriptItem.punctuation ".",
        TranscriptItem.pronunciation "spk_1" "world"]) :=
  C1_line_count_eq_run_count "spk_0" "Hello"
    [TranscriptItem.punctuation ".", TranscriptItem.pronunciation "spk_1" "world"]
    (by decide) (by decide)

/-- Claim C3: whenever the loop finishes with non-empty accumulated text
and some pronunciation item was seen, the final emitted line is the
speaker label of the last pronunciation item of the whole sequence,
followed by the trimmed accumulated text. -/
theorem C3_final_line_uses_last_label (items : List TranscriptItem) (l : String)
    (h1 : (convLoop items).current_text ≠ "")
    (h2 : lastLabel items = some l) :
    convertLines items
      = some ((convLoop items).output
          ++ [l ++ ": " ++ pyStrip (convLoop items).current_text ++ "\n"]) := by
  have hsl : (convLoop items).speaker_label = some l := by
    rw [convLoop, foldl_speaker_label items initState, h2]
  simp [convertLines, convFinishLines, h1, hsl]

/-- Witness for `C3_final_line_uses_last_label` on a one-item input. -/
theorem C3_witness :
    convertLines [TranscriptItem.pronunciation "spk_0" "Hi"]
      = some ((convLoop [TranscriptItem.pronunciation "spk_0" "Hi"]).output
          ++ ["spk_0" ++ ": "
              ++ pyStrip (convLoop [TranscriptItem.pronunciation "spk_0" "Hi"]).current_text
              ++ "\n"]) :=
  C3_final_line_uses_last_label [TranscriptItem.pronunciation "spk_0" "Hi"] "spk_0"
    (by decide) (by decide)

/-- Claim C4: on the three-item input of the spec the returned transcript
string is exactly `"spk_0: Hello.\nspk_1: world\n"`. -/
theorem C4_three_item_example :
    convert_to_txt_file [TranscriptItem.pronunciation "spk_0" "Hello",
        TranscriptItem.punctuation ".",
        TranscriptItem.pronunciation "spk_1" "world"]
      = some "spk_0: Hello.\nspk_1: world\n" := by
  decide

/-- Claim C5, counterexample: the non-empty sequence holding one
punctuation item with empty content and no pronunciation item makes the
normalizer return the empty transcript normally instead of raising: the
final emission is skipped because `current_text` stays empty. -/
theorem C5_counterexample :
    ([TranscriptItem.punctuation ""] : List TranscriptItem) ≠ []
      ∧ (∀ i ∈ [TranscriptItem.punctuation ""],
          TranscriptItem.isPronunciation i = false)
      ∧ convert_to_txt_file [TranscriptItem.punctuation ""] = some "" := by
  decide

/-- Claim C5, amended: on every item sequence with no pronunciation item
and at least one item of non-empty content, `convert_to_txt_file` raises
an uncaught `UnboundLocalError` (a `NameError`) at the final emission,
because the variable `speaker_label` is only ever bound in the
pronunciation branch of the loop; it neither returns a result nor reports
a parse error. -/
theorem C5_unbound_speaker_label (items : List TranscriptItem)
    (hall : ∀ i ∈ items, TranscriptItem.isPronunciation i = false)
    (hsome : ∃ i ∈ items, TranscriptItem.content i ≠ "") :
    convert_to_txt_file items = none := by
  have hfold := foldl_all_punctuation items initState hall
  have hct : (convLoop items).current_text ≠ "" := by
    rw [convLoop, hfold.1]
    exact String.append_ne_empty_right _ (contentConcat_ne_empty items hsome)
  have hsl : (convLoop items).speaker_label = none := by
    rw [convLoop, hfold.2]; rfl
  rw [convert_to_txt_file, convertLines]
  simp [convFinishLines, hct, hsl]

/-- Witness for `C5_unbound_speaker_label` on a one-item input. -/
theorem C5_witness :
    convert_to_txt_file [TranscriptItem.punctuation "."] = none :=
  C5_unbound_speaker_label [TranscriptItem.punctuation "."] (by decide) (by decide)

/-- Claim C6: the empty item list normalizes to the empty string and is
not an error. -/
theorem C6_empty_items_empty_transcript :
    convert_to_txt_file [] = some "" := by
  decide

/-- Claim C2, observed divergence: on a COMPLETED event whose downloaded
transcript file is not valid JSON, `convert_to_txt_file` catches the
`JSONDecodeError` but returns the single value `None`; the handler then
unpacks that value into two variables, so a `TypeError` escapes
`lambda_handler` uncaught, instead of reaching the structured
conversion-failure response right below the call site. -/
theorem C2_invalid_json_uncaught_type_error (bucket jobName : String)
    (dmsg tmp umsg imsg ibody itext pmsg : String)
    (uOk iRaises iHasBody : Bool) (iStatus pStatus : Nat) :
    (bedrock_lambda_handler bucket
      { downloadOk := true, downloadErrMsg := dmsg, parsedItems := none,
        tmpName := tmp, uploadOk := uOk, uploadErrMsg := umsg,
        invokeRaises := iRaises, invokeErrMsg := imsg,
        invokeStatus := iStatus, invokeHasBody := iHasBody,
        invokeBodyStr := ibody, invokeText := itext,
        putStatus := pStatus, putRespStr := pmsg }
      (some ⟨jobName, "COMPLETED"⟩)).1 = PyResult.exn "TypeError" := rfl

/-- Claim C7: on a FAILED job-status event the handler reports the
failure, and its effect trace contains no transcript download from
storage and no model invocation. -/
theorem C7_failed_job_no_fetch_no_invoke (bucket jobName : String) (env : BedrockEnv) :
    (bedrock_lambda_handler bucket env (some ⟨jobName, "FAILED"⟩)).1
        = PyResult.ok ⟨400, "Unable to process, job " ++ jobName ++ " failed."⟩
      ∧ ∀ e ∈ (bedrock_lambda_handler bucket env (some ⟨jobName, "FAILED"⟩)).2,
          (∀ b k d, e ≠ BedrockEffect.s3DownloadFile b k d)
            ∧ ∀ m t, e ≠ BedrockEffect.invokeModel m t := by
  refine ⟨rfl, ?_⟩
  intro e he
  have h2 : (bedrock_lambda_handler bucket env (some ⟨jobName, "FAILED"⟩)).2
      = [BedrockEffect.getTranscriptionJob jobName] := rfl
  rw [h2] at he
  have h3 : e = BedrockEffect.getTranscriptionJob jobName := List.mem_singleton.mp he
  subst h3
  exact ⟨fun b k d h => BedrockEffect.noConfusion h,
    fun m t h => BedrockEffect.noConfusion h⟩

/-- Witness for `C7_failed_job_no_fetch_no_invoke` at a concrete event
and environment. -/
theorem C7_witness :
    (bedrock_lambda_handler "bkt" ⟨true, "", none, "", true, "", false, "", 200, true, "", "", 200, ""⟩
        (some ⟨"summarizer-x", "FAILED"⟩)).1
        = PyResult.ok ⟨400, "Unable to process, job " ++ "summarizer-x" ++ " failed."⟩
      ∧ ∀ e ∈ (bedrock_lambda_handler "bkt"
            ⟨true, "", none, "", true, "", false, "", 200, true, "", "", 200, ""⟩
            (some ⟨"summarizer-x", "FAILED"⟩)).2,
          (∀ b k d, e ≠ BedrockEffect.s3DownloadFile b k d)
            ∧ ∀ m t, e ≠ BedrockEffect.invokeModel m t :=
  C7_failed_job_no_fetch_no_invoke "bkt" "summarizer-x"
    ⟨true, "", none, "", true, "", false, "", 200, true, "", "", 200, ""⟩

/-- Claim C8, counterexample: the key `"source/"` (the watched folder
itself) has no file extension, yet the trigger returns the 200 skip
response instead of the `InvalidInput` failure, because the folder check
runs before the extension check. -/
theorem C8_counterexample :
    (splitext "source/").2 = ""
      ∧ s3_lambda_handler ⟨false, "", 200⟩ (fun _ => 0) "bucket" "source/"
        = (⟨200, "Source folder, skipping"⟩, []) :=
  ⟨rfl, rfl⟩

/-- Claim C8, amended: for every storage-create event whose object key is
not the watched folder `"source/"` itself and has no file extension, the
trigger fails with the 400 invalid-file-name response naming the key and
submits no transcription job. -/
theorem C8_no_extension_invalid_input (env : TranscribeEnv) (r : Nat → Nat)
    (bucket key : String) (h1 : key ≠ "source/") (h2 : (splitext key).2 = "") :
    s3_lambda_handler env r bucket key
      = (⟨400, "invalid file name " ++ key⟩, []) := by
  simp [s3_lambda_handler, h1, h2]

/-- Witness for `C8_no_extension_invalid_input` at the spec's example key
`"source/clip"`. -/
theorem C8_witness :
    s3_lambda_handler ⟨false, "", 200⟩ (fun _ => 0) "bucket" "source/clip"
      = (⟨400, "invalid file name " ++ "source/clip"⟩, []) :=
  C8_no_extension_invalid_input ⟨false, "", 200⟩ (fun _ => 0) "bucket" "source/clip"
    (by decide) (by decide)

/-- Claim C9: whatever the random source yields, the generated job name
is the EventBridge rule's fixed job-name pattern `"summarizer-"` followed
by exactly 12 characters drawn from the lowercase letters and digits. -/
theorem C9_job_name_shape (r : Nat → Nat) :
    ∃ s : String, job_name_of r = transcribe_rule_job_name_pat ++ s
      ∧ s.length = 12
      ∧ ∀ ch ∈ s.data, ch ∈ (ascii_lowercase ++ string_digits).data := by
  refine ⟨String.mk (job_id_suffix_of r), rfl, ?_, ?_⟩
  · show (job_id_suffix_of r).length = 12
    simp [job_id_suffix_of]
  · intro ch hch
    have hch2 : ch ∈ job_id_suffix_of r := hch
    simp only [job_id_suffix_of, List.mem_map, List.mem_range] at hch2
    obtain ⟨i, _, rfl⟩ := hch2
    have hmem : ∀ n : Fin 36,
        ((ascii_lowercase ++ string_digits).toList).getD n.val 'a'
          ∈ (ascii_lowercase ++ string_digits).data := by decide
    exact hmem ⟨r i % (ascii_lowercase ++ string_digits).toList.length,
      Nat.mod_lt _ (by decide)⟩

/-- Witness for `C9_job_name_shape` at a concrete random source. -/
theorem C9_witness :
    ∃ s : String, job_name_of (fun _ => 0) = transcribe_rule_job_name_pat ++ s
      ∧ s.length = 12
      ∧ ∀ ch ∈ s.data, ch ∈ (ascii_lowercase ++ string_digits).data :=
  C9_job_name_shape (fun _ => 0)

/-- Claim C10: the normalizer is deterministic as a function of its
parsed JSON input — two runs of `convert_to_txt_file` on the same parse
outcome yield the same transcript content string, whatever temp-file
names the runtime picks for the two runs. -/
theorem C10_normalizer_deterministic (t1 t2 : String)
    (parsed : Option (List TranscriptItem)) :
    transcriptContent (convert_to_txt_file_py t1 parsed)
      = transcriptContent (convert_to_txt_file_py t2 parsed) := by
  cases parsed with
  | none => rfl
  | some items =>
    cases h : convertLines items <;>
      simp [convert_to_txt_file_py, h, transcriptContent]

end AudioSummarizer
